import Mathlib

/-!
# Verification of the blog persistence schema (blog/models.py)

Shallow embedding of the two Django models Post and Comment, the custom
PublishedManager, and the declarative field semantics (default values,
auto_now_add, auto_now, choices, max_length, unique_for_date,
on_delete=CASCADE, Meta.ordering, Meta.indexes) as Lean definitions,
together with theorems settling the specification claims about them.

Conventions of the embedding:
* a table is a List of rows, most recent insert at the head;
* timestamps are a DateTime record of numeric components;
* fallible operations (validated writes) return Except String;
* storageInsertPost checks exactly the constraints that the model
  declarations emit to the database schema (the primary key; the
  unique_for_date option emits no database constraint, per the
  documented semantics of that field option), while full_clean style
  validation (validatedInsertPost, validatedInsertComment) checks the
  application-level validators: max_length, choices membership, the
  email format check of EmailField, and validate_unique for the
  unique_for_date option.
-/

namespace Blog

/-- A timestamp, as the DateTimeField value of the object mapper:
calendar date plus time of day.  The fields mirror the Python datetime
attributes year, month, day, hour, minute, second. -/
structure DateTime where
  year : Nat
  month : Nat
  day : Nat
  hour : Nat
  minute : Nat
  second : Nat
deriving DecidableEq, Repr

/-- The calendar-date component of a timestamp, the granularity at
which unique_for_date=publish scopes slug uniqueness (date, not full
timestamp). -/
def DateTime.date (d : DateTime) : Nat × Nat × Nat :=
  (d.year, d.month, d.day)

/-- Total linear encoding of a timestamp; the bases 13, 32, 24, 60, 60
bound the respective calendar components, so on valid datetimes this
encoding is order-isomorphic to chronological order.  It is the order
key used by the Meta.ordering sorts. -/
def DateTime.toNat (d : DateTime) : Nat :=
  ((((d.year * 13 + d.month) * 32 + d.day) * 24 + d.hour) * 60
      + d.minute) * 60 + d.second

/-- Stored code of the DRAFT variant of Post.Status. -/
def Status.DRAFT : String := "DF"

/-- Stored code of the PUBLISHED variant of Post.Status. -/
def Status.PUBLISHED : String := "PB"

/-- Post.Status.choices: the closed list of (stored code, display
label) pairs declared by the TextChoices subclass. -/
def Status.choices : List (String × String) :=
  [("DF", "Draft"), ("PB", "Published")]

/-- A row of the Post table.  Fields follow blog/models.py; the tags
association is managed by the external tagging subsystem and carries no
column on this table, so it is not part of the row.  The publish, slug
and status columns are declared without null=True, so they are
non-nullable: a row never lacks them. -/
structure Post where
  id : Nat
  title : String
  slug : String
  /-- Foreign key to the external user table (settings.AUTH_USER_MODEL). -/
  author : Nat
  body : String
  publish : DateTime
  created : DateTime
  updated : DateTime
  status : String
deriving DecidableEq, Repr

/-- A row of the Comment table, following blog/models.py. -/
structure Comment where
  id : Nat
  /-- Foreign key to the Post table. -/
  post : Nat
  name : String
  email : String
  body : String
  created : DateTime
  updated : DateTime
  active : Bool
deriving DecidableEq, Repr

/-- Post.objects.get_queryset(): the unrestricted read of the table by
the default manager. -/
def objectsGetQueryset (table : List Post) : List Post :=
  table

/-- PublishedManager.get_queryset(): obtained from the default queryset
by applying the single filter status=Post.Status.PUBLISHED.  It holds
no state of its own: it re-reads the table on every call. -/
def publishedGetQueryset (table : List Post) : List Post :=
  (objectsGetQueryset table).filter (fun p => p.status == Status.PUBLISHED)

/-- Caller input for creating a Post.  The created and updated fields
record an attempted direct caller value for the auto-managed timestamp
columns; insertPostRow ignores them, which is what auto_now_add=True
and auto_now=True mean on insert. -/
structure PostInput where
  title : String
  slug : String
  author : Nat
  body : String
  /-- Optional explicit publish value; default=timezone.now applies when absent. -/
  publish : Option DateTime
  /-- Optional explicit status value; default=Status.DRAFT applies when absent. -/
  status : Option String
  /-- Attempted caller value for created; ignored (auto_now_add=True). -/
  created : Option DateTime
  /-- Attempted caller value for updated; ignored (auto_now=True). -/
  updated : Option DateTime
deriving Repr

/-- Row constructed by an insert of a Post at time now: the declared
field defaults fill the absent inputs, created and updated are both set
to now by the auto_now_add=True and auto_now=True options, regardless
of any attempted caller value. -/
def insertPostRow (now : DateTime) (nextId : Nat) (inp : PostInput) : Post :=
  { id := nextId
    title := inp.title
    slug := inp.slug
    author := inp.author
    body := inp.body
    publish := inp.publish.getD now
    created := now
    updated := now
    status := inp.status.getD Status.DRAFT }

/-- Caller input for updating a Post: an optional new value per
editable column.  The created and updated fields record an attempted
direct caller value for the auto-managed timestamp columns, which the
update ignores: both carry editable=False (implied by auto_now_add and
auto_now) and are excluded from the form/update boundary. -/
structure PostUpdate where
  title : Option String
  slug : Option String
  author : Option Nat
  body : Option String
  publish : Option DateTime
  status : Option String
  /-- Attempted caller value for created; ignored (auto_now_add field, editable=False). -/
  created : Option DateTime
  /-- Attempted caller value for updated; ignored, auto_now=True refreshes it. -/
  updated : Option DateTime
deriving Repr

/-- Row after saving an update of a Post at time now: editable columns
take their new values when supplied, created is kept unchanged
(auto_now_add sets it only on insert), and updated is refreshed to now
on every save (auto_now=True). -/
def updatePostRow (now : DateTime) (p : Post) (u : PostUpdate) : Post :=
  { id := p.id
    title := u.title.getD p.title
    slug := u.slug.getD p.slug
    author := u.author.getD p.author
    body := u.body.getD p.body
    publish := u.publish.getD p.publish
    created := p.created
    updated := now
    status := u.status.getD p.status }

/-- Caller input for creating a Comment; active defaults to true when
absent, created and updated attempted values are ignored as for Post. -/
structure CommentInput where
  post : Nat
  name : String
  email : String
  body : String
  /-- Optional explicit active value; default=True applies when absent. -/
  active : Option Bool
  /-- Attempted caller value for created; ignored (auto_now_add=True). -/
  created : Option DateTime
  /-- Attempted caller value for updated; ignored (auto_now=True). -/
  updated : Option DateTime
deriving Repr

/-- Row constructed by an insert of a Comment at time now. -/
def insertCommentRow (now : DateTime) (nextId : Nat) (inp : CommentInput) : Comment :=
  { id := nextId
    post := inp.post
    name := inp.name
    email := inp.email
    body := inp.body
    created := now
    updated := now
    active := inp.active.getD true }

/-- Caller input for updating a Comment, as for PostUpdate. -/
structure CommentUpdate where
  post : Option Nat
  name : Option String
  email : Option String
  body : Option String
  active : Option Bool
  /-- Attempted caller value for created; ignored (auto_now_add field, editable=False). -/
  created : Option DateTime
  /-- Attempted caller value for updated; ignored, auto_now=True refreshes it. -/
  updated : Option DateTime
deriving Repr

/-- Row after saving an update of a Comment at time now: created kept,
updated refreshed to now. -/
def updateCommentRow (now : DateTime) (c : Comment) (u : CommentUpdate) : Comment :=
  { id := c.id
    post := u.post.getD c.post
    name := u.name.getD c.name
    email := u.email.getD c.email
    body := u.body.getD c.body
    created := c.created
    updated := now
    active := u.active.getD c.active }

/-- Splits a character list at every occurrence of the separator,
keeping empty groups, as String.split does on a single-character
separator. -/
def splitOnChar (ch : Char) : List Char → List (List Char)
  | [] => [[]]
  | c :: cs =>
      match splitOnChar ch cs with
      | [] => [[c]]
      | g :: gs => if c == ch then [] :: g :: gs else (c :: g) :: gs

/-- Syntactic email check of the EmailField validator, whose code lives
in the framework outside this repository; modelled from its documented
contract: one at-sign separating a nonempty user part from a domain of
nonempty dot-separated labels. -/
def isValidEmail (s : String) : Bool :=
  match splitOnChar '@' s.toList with
  | [userPart, domain] =>
      !userPart.isEmpty && !domain.isEmpty &&
        (splitOnChar '.' domain).all (fun lab => !lab.isEmpty)
  | _ => false

/-- Field validation of a Post, as run by full_clean: the max_length
bounds declared on title (250), slug (250) and status (2), and
membership of status in the closed choices list.  On success the row is
returned unchanged: validation never coerces a value. -/
def cleanFieldsPost (p : Post) : Except String Post :=
  if p.title.length > 250 then
    Except.error "title: ensure this value has at most 250 characters"
  else if p.slug.length > 250 then
    Except.error "slug: ensure this value has at most 250 characters"
  else if p.status.length > 2 then
    Except.error "status: ensure this value has at most 2 characters"
  else if !(Status.choices.any (fun choice => choice.1 == p.status)) then
    Except.error "status: value is not a valid choice"
  else
    Except.ok p

/-- Model.validate_unique for the unique_for_date=publish option on
slug: rejects the row when some stored row has the same slug and a
publish timestamp on the same calendar date.  This check runs at the
validation boundary (full_clean); it is not a database constraint. -/
def validateUniquePost (table : List Post) (p : Post) : Except String Post :=
  if table.any (fun q => q.slug == p.slug && q.publish.date == p.publish.date) then
    Except.error "slug: must be unique for publish date"
  else
    Except.ok p

/-- full_clean of a Post against the current table: field validators
then validate_unique. -/
def fullCleanPost (table : List Post) (p : Post) : Except String Post :=
  match cleanFieldsPost p with
  | Except.error e => Except.error e
  | Except.ok _ => validateUniquePost table p

/-- Insert through the validation boundary: full_clean, then store. -/
def validatedInsertPost (table : List Post) (p : Post) : Except String (List Post) :=
  match fullCleanPost table p with
  | Except.error e => Except.error e
  | Except.ok q => Except.ok (q :: table)

/-- The database-level constraints the Post model declarations emit:
only primary-key uniqueness on id.  The unique_for_date option on slug
emits no database constraint (it is enforced by Model.validate_unique
during model validation, not at the database level), and no
Meta.constraints are declared. -/
def storageConstraintViolation (table : List Post) (p : Post) : Bool :=
  table.any (fun q => q.id == p.id)

/-- Insert at the storage layer, bypassing validation: the database
engine checks only the schema-level constraints above. -/
def storageInsertPost (table : List Post) (p : Post) : Except String (List Post) :=
  if storageConstraintViolation table p then
    Except.error "UNIQUE constraint failed: blog_post.id"
  else
    Except.ok (p :: table)

/-- Field validation of a Comment, as run by full_clean: the max_length
bound on name (80) and the EmailField format check on email.  On
success the row is returned unchanged. -/
def cleanFieldsComment (c : Comment) : Except String Comment :=
  if c.name.length > 80 then
    Except.error "name: ensure this value has at most 80 characters"
  else if !isValidEmail c.email then
    Except.error "email: enter a valid email address"
  else
    Except.ok c

/-- Insert of a Comment through the validation boundary. -/
def validatedInsertComment (table : List Comment) (c : Comment) :
    Except String (List Comment) :=
  match cleanFieldsComment c with
  | Except.error e => Except.error e
  | Except.ok d => Except.ok (d :: table)

/-- Post tables reachable from the empty table by validated inserts. -/
inductive PostTableReachable : List Post → Prop where
  | empty : PostTableReachable []
  | step {table : List Post} {p : Post} {table2 : List Post} :
      PostTableReachable table →
      validatedInsertPost table p = Except.ok table2 →
      PostTableReachable table2

/-- Comment tables reachable from the empty table by validated inserts. -/
inductive CommentTableReachable : List Comment → Prop where
  | empty : CommentTableReachable []
  | step {table : List Comment} {c : Comment} {table2 : List Comment} :
      CommentTableReachable table →
      validatedInsertComment table c = Except.ok table2 →
      CommentTableReachable table2

/-- Insertion of an element into a list sorted by the Boolean
comparison cmp, used to give the Meta.ordering defaults an executable
semantics. -/
def insertSorted (cmp : α → α → Bool) (a : α) : List α → List α
  | [] => [a]
  | b :: l => if cmp a b then a :: b :: l else b :: insertSorted cmp a l

/-- Insertion sort by the Boolean comparison cmp. -/
def sortBy (cmp : α → α → Bool) : List α → List α
  | [] => []
  | a :: l => insertSorted cmp a (sortBy cmp l)

/-- The comparison realising the Post Meta option ordering=[-publish]:
a row comes first when its publish timestamp is the later one. -/
def publishDescBefore (a b : Post) : Bool :=
  decide (b.publish.toNat ≤ a.publish.toNat)

/-- The comparison realising the Comment Meta option ordering=[created]:
a row comes first when its created timestamp is the earlier one. -/
def createdAscBefore (a b : Comment) : Bool :=
  decide (a.created.toNat ≤ b.created.toNat)

/-- Result of querying all Posts without an explicit order: the table
in the default Meta ordering, publish descending. -/
def allPostsDefaultOrder (table : List Post) : List Post :=
  sortBy publishDescBefore table

/-- Result of querying all Comments without an explicit order: the
table in the default Meta ordering, created ascending. -/
def allCommentsDefaultOrder (table : List Comment) : List Comment :=
  sortBy createdAscBefore table

/-- Post.Meta.ordering as declared. -/
def postMetaOrdering : List String := ["-publish"]

/-- Post.Meta.indexes as declared: one index, on the same field
expression as the default ordering. -/
def postMetaIndexes : List (List String) := [["-publish"]]

/-- Comment.Meta.ordering as declared. -/
def commentMetaOrdering : List String := ["created"]

/-- Comment.Meta.indexes as declared: one index, on the same field
expression as the default ordering. -/
def commentMetaIndexes : List (List String) := [["created"]]

/-- The persisted state the cascade rules act on: the external user
table (by id), the Post table and the Comment table. -/
structure DB where
  users : List Nat
  posts : List Post
  comments : List Comment
deriving DecidableEq, Repr

/-- Deleting a Post by id: the engine removes the row and, by
on_delete=CASCADE on Comment.post, every Comment referencing it.  The
operation is total: a cascade is never reported as an error. -/
def deletePost (db : DB) (pid : Nat) : DB :=
  { users := db.users
    posts := db.posts.filter (fun p => p.id != pid)
    comments := db.comments.filter (fun c => c.post != pid) }

/-- Deleting a user by id: by on_delete=CASCADE on Post.author the
engine removes every Post of that author and, transitively through
on_delete=CASCADE on Comment.post, every Comment on those Posts.  The
operation is total: a cascade is never reported as an error. -/
def deleteUser (db : DB) (uid : Nat) : DB :=
  { users := db.users.filter (fun u => u != uid)
    posts := db.posts.filter (fun p => p.author != uid)
    comments := db.comments.filter (fun c =>
      !(db.posts.any (fun p => p.id == c.post && p.author == uid))) }

/-- A positional argument handed to the external route resolver. -/
inductive UrlArg where
  | num : Nat → UrlArg
  | str : String → UrlArg
deriving DecidableEq, Repr

/-- What the external routing subsystem receives: a route name and the
positional arguments, in order.  The route pattern itself is declared
outside this code. -/
structure ResolvedRoute where
  routeName : String
  args : List UrlArg
deriving DecidableEq, Repr

/-- Model of django.urls.reverse: hands the route name and the
positional arguments to the external routing table. -/
def reverse (routeName : String) (args : List UrlArg) : ResolvedRoute :=
  { routeName := routeName, args := args }

/-- Post.get_absolute_url: extracts publish.year, publish.month,
publish.day and slug, in that order, and hands exactly those to the
resolver under the route name blog:post_detail. -/
def Post.get_absolute_url (p : Post) : ResolvedRoute :=
  reverse "blog:post_detail"
    [UrlArg.num p.publish.year, UrlArg.num p.publish.month,
     UrlArg.num p.publish.day, UrlArg.str p.slug]

/-- Midnight, January 1, 2024. -/
def dtJan1 : DateTime := ⟨2024, 1, 1, 0, 0, 0⟩

/-- Midnight, January 2, 2024. -/
def dtJan2 : DateTime := ⟨2024, 1, 2, 0, 0, 0⟩

/-- A draft Post with slug hi published (timestamped) January 1, 2024. -/
def postHiJan1 : Post :=
  { id := 1, title := "Hi", slug := "hi", author := 1, body := "hello"
    publish := dtJan1, created := dtJan1, updated := dtJan1
    status := "DF" }

/-- A second Post with the same slug and the same publish date as
postHiJan1, distinct primary key. -/
def postHiJan1b : Post :=
  { postHiJan1 with id := 2 }

/-- A Post with the same slug as postHiJan1 but publish date
January 2, 2024. -/
def postHiJan2 : Post :=
  { postHiJan1 with id := 3, publish := dtJan2, created := dtJan2, updated := dtJan2 }

/-- A Post whose status code XX lies outside the choices set while all
length bounds hold. -/
def badStatusPost : Post :=
  { postHiJan1 with id := 4, status := "XX" }

/-- A Comment whose email has no at-sign. -/
def badEmailComment : Comment :=
  { id := 1, post := 1, name := "Ann", email := "not-an-email"
    body := "hello", created := dtJan1, updated := dtJan1, active := true }

end Blog

namespace Blog

/-- A Comment whose fields pass every validator. -/
def commentAnn : Comment :=
  { id := 2, post := 1, name := "Ann", email := "ann@example.com"
    body := "hello", created := dtJan1, updated := dtJan1, active := true }

/-- A published Post (status code PB). -/
def postPublished : Post :=
  { postHiJan1 with id := 5, slug := "pub", status := "PB" }

/-- A sample persisted state used to witness the cascade claim. -/
def dbSample : DB :=
  { users := [1], posts := [postHiJan1, postPublished],
    comments := [badEmailComment, commentAnn] }

end Blog

namespace Blog

theorem status_in_choices_iff (s : String) :
    (Status.choices.any (fun choice => choice.1 == s) = true) ↔
      s = Status.DRAFT ∨ s = Status.PUBLISHED := by
  simp [Status.choices, Status.DRAFT, Status.PUBLISHED]
  exact or_congr eq_comm eq_comm

theorem cleanFieldsPost_ok_iff (p q : Post) :
    cleanFieldsPost p = Except.ok q ↔
      q = p ∧ p.title.length ≤ 250 ∧ p.slug.length ≤ 250 ∧
      p.status.length ≤ 2 ∧
      (p.status = Status.DRAFT ∨ p.status = Status.PUBLISHED) := by
  unfold cleanFieldsPost
  split_ifs with h1 h2 h3 h4
  · constructor
    · intro h; exact h.elim
    · rintro ⟨-, hb, -⟩; omega
  · constructor
    · intro h; exact h.elim
    · rintro ⟨-, -, hb, -⟩; omega
  · constructor
    · intro h; exact h.elim
    · rintro ⟨-, -, -, hb, -⟩; omega
  · constructor
    · intro h; exact h.elim
    · rintro ⟨-, -, -, -, hst⟩
      rw [(status_in_choices_iff p.status).mpr hst] at h4
      simp at h4
  · have hany : Status.choices.any (fun choice => choice.1 == p.status) = true := by
      cases hb : Status.choices.any (fun choice => choice.1 == p.status)
      · rw [hb] at h4; simp at h4
      · rfl
    have hin := (status_in_choices_iff p.status).mp hany
    constructor
    · intro h
      have hq : p = q := (Except.ok.injEq p q) ▸ h
      subst hq
      exact ⟨rfl, by omega, by omega, by omega, hin⟩
    · rintro ⟨rfl, -, -, -, -⟩
      rfl

theorem validatedInsertPost_ok_iff (table : List Post) (p : Post)
    (t2 : List Post) :
    validatedInsertPost table p = Except.ok t2 ↔
      t2 = p :: table ∧ cleanFieldsPost p = Except.ok p ∧
      ∀ q ∈ table, ¬(q.slug = p.slug ∧ q.publish.date = p.publish.date) := by
  unfold validatedInsertPost fullCleanPost validateUniquePost
  cases hcl : cleanFieldsPost p with
  | error e =>
    constructor
    · intro h; simp at h
    · rintro ⟨-, hok, -⟩; simp at hok
  | ok q =>
    have hq : q = p := ((cleanFieldsPost_ok_iff p q).mp hcl).1
    subst hq
    split_ifs with hdup
    · constructor
      · intro h; simp at h
      · rintro ⟨-, -, hnone⟩
        rcases List.any_eq_true.mp hdup with ⟨r, hr, hcond⟩
        simp only [Bool.and_eq_true, beq_iff_eq] at hcond
        exact hnone r hr ⟨hcond.1, hcond.2⟩
    · constructor
      · intro h
        simp only [Except.ok.injEq] at h
        refine ⟨h.symm, rfl, ?_⟩
        intro r hr hcond
        refine hdup (List.any_eq_true.mpr ⟨r, hr, ?_⟩)
        simp only [Bool.and_eq_true, beq_iff_eq]
        exact ⟨hcond.1, hcond.2⟩
      · rintro ⟨rfl, -, -⟩; rfl

theorem cleanFieldsComment_ok_iff (c d : Comment) :
    cleanFieldsComment c = Except.ok d ↔
      d = c ∧ c.name.length ≤ 80 ∧ isValidEmail c.email = true := by
  unfold cleanFieldsComment
  split_ifs with h1 h2
  · constructor
    · intro h; exact h.elim
    · rintro ⟨-, hb, -⟩; omega
  · constructor
    · intro h; exact h.elim
    · rintro ⟨-, -, hb⟩
      rw [hb] at h2; simp at h2
  · have hval : isValidEmail c.email = true := by
      cases hb : isValidEmail c.email
      · rw [hb] at h2; simp at h2
      · rfl
    constructor
    · intro h
      have hd : c = d := (Except.ok.injEq c d) ▸ h
      subst hd
      exact ⟨rfl, by omega, hval⟩
    · rintro ⟨rfl, -, -⟩; rfl

theorem validatedInsertComment_ok_iff (table : List Comment) (c : Comment)
    (t2 : List Comment) :
    validatedInsertComment table c = Except.ok t2 ↔
      t2 = c :: table ∧ c.name.length ≤ 80 ∧ isValidEmail c.email = true := by
  unfold validatedInsertComment
  cases hcl : cleanFieldsComment c with
  | error e =>
    constructor
    · intro h; simp at h
    · rintro ⟨-, hn, hv⟩
      have hok : cleanFieldsComment c = Except.ok c :=
        (cleanFieldsComment_ok_iff c c).mpr ⟨rfl, hn, hv⟩
      rw [hcl] at hok; simp at hok
  | ok d =>
    rcases (cleanFieldsComment_ok_iff c d).mp hcl with ⟨rfl, hn, hv⟩
    constructor
    · intro h
      simp only [Except.ok.injEq] at h
      exact ⟨h.symm, hn, hv⟩
    · rintro ⟨rfl, -, -⟩; rfl

end Blog
namespace Blog

theorem perm_insertSorted (cmp : α → α → Bool) (a : α) (l : List α) :
    List.Perm (insertSorted cmp a l) (a :: l) := by
  induction l with
  | nil => exact List.Perm.refl _
  | cons b l ih =>
    by_cases h : cmp a b = true
    · rw [insertSorted, if_pos h]
    · rw [insertSorted, if_neg h]
      exact (ih.cons b).trans (List.Perm.swap a b l)

theorem pairwise_insertSorted {cmp : α → α → Bool}
    (htot : ∀ a b, cmp a b = true ∨ cmp b a = true)
    (htrans : ∀ a b c, cmp a b = true → cmp b c = true → cmp a c = true)
    (a : α) {l : List α} (h : l.Pairwise (fun x y => cmp x y = true)) :
    (insertSorted cmp a l).Pairwise (fun x y => cmp x y = true) := by
  induction l with
  | nil => simp [insertSorted]
  | cons b l ih =>
    rcases List.pairwise_cons.mp h with ⟨hb, hl⟩
    by_cases hab : cmp a b = true
    · rw [insertSorted, if_pos hab]
      refine List.pairwise_cons.mpr ⟨?_, h⟩
      intro y hy
      rcases List.mem_cons.mp hy with rfl | hy
      · exact hab
      · exact htrans a b y hab (hb y hy)
    · rw [insertSorted, if_neg hab]
      refine List.pairwise_cons.mpr ⟨?_, ih hl⟩
      intro y hy
      have hy2 : y ∈ a :: l := (perm_insertSorted cmp a l).mem_iff.mp hy
      rcases List.mem_cons.mp hy2 with hya | hy3
      · rw [hya]
        rcases htot a b with h2 | h2
        · exact absurd h2 hab
        · exact h2
      · exact hb y hy3

theorem perm_sortBy (cmp : α → α → Bool) (l : List α) :
    List.Perm (sortBy cmp l) l := by
  induction l with
  | nil => exact List.Perm.refl _
  | cons a l ih => exact (perm_insertSorted cmp a (sortBy cmp l)).trans (ih.cons a)

theorem pairwise_sortBy {cmp : α → α → Bool}
    (htot : ∀ a b, cmp a b = true ∨ cmp b a = true)
    (htrans : ∀ a b c, cmp a b = true → cmp b c = true → cmp a c = true)
    (l : List α) :
    (sortBy cmp l).Pairwise (fun x y => cmp x y = true) := by
  induction l with
  | nil => simp [sortBy]
  | cons a l ih => exact pairwise_insertSorted htot htrans a ih

theorem publishDescBefore_total (a b : Post) :
    publishDescBefore a b = true ∨ publishDescBefore b a = true := by
  unfold publishDescBefore
  rcases Nat.le_total b.publish.toNat a.publish.toNat with h | h
  · exact Or.inl (decide_eq_true h)
  · exact Or.inr (decide_eq_true h)

theorem publishDescBefore_trans (a b c : Post) :
    publishDescBefore a b = true → publishDescBefore b c = true →
    publishDescBefore a c = true := by
  unfold publishDescBefore
  intro h1 h2
  exact decide_eq_true (Nat.le_trans (of_decide_eq_true h2) (of_decide_eq_true h1))

theorem createdAscBefore_total (a b : Comment) :
    createdAscBefore a b = true ∨ createdAscBefore b a = true := by
  unfold createdAscBefore
  rcases Nat.le_total a.created.toNat b.created.toNat with h | h
  · exact Or.inl (decide_eq_true h)
  · exact Or.inr (decide_eq_true h)

theorem createdAscBefore_trans (a b c : Comment) :
    createdAscBefore a b = true → createdAscBefore b c = true →
    createdAscBefore a c = true := by
  unfold createdAscBefore
  intro h1 h2
  exact decide_eq_true (Nat.le_trans (of_decide_eq_true h1) (of_decide_eq_true h2))

end Blog
namespace Blog

/-- Claim C1: for every Post p, the published-only accessor
(publishedGetQueryset) contains p iff p is in the unrestricted accessor
(objectsGetQueryset) with p.status equal to the Published stored code
PB; and the accessor is obtained from the unrestricted accessor by
applying that single status predicate, holding no copy of the table, so
it always reflects the table it is handed. -/
theorem published_accessor_spec (table : List Post) (p : Post) :
    (p ∈ publishedGetQueryset table ↔
      p ∈ objectsGetQueryset table ∧ p.status = Status.PUBLISHED) ∧
    publishedGetQueryset table =
      (objectsGetQueryset table).filter (fun q => q.status == Status.PUBLISHED) := by
  constructor
  · simp [publishedGetQueryset, objectsGetQueryset, List.mem_filter]
  · rfl

/-- Claim C1 witness: the published-only accessor applied to a concrete
two-row table containing one published and one draft Post. -/
theorem published_accessor_spec_witness :
    (postPublished ∈ publishedGetQueryset [postPublished, postHiJan1] ↔
      postPublished ∈ objectsGetQueryset [postPublished, postHiJan1] ∧
      postPublished.status = Status.PUBLISHED) ∧
    publishedGetQueryset [postPublished, postHiJan1] =
      (objectsGetQueryset [postPublished, postHiJan1]).filter
        (fun q => q.status == Status.PUBLISHED) :=
  published_accessor_spec [postPublished, postHiJan1] postPublished

end Blog
namespace Blog

/-- Claim C4: querying all Posts without an explicit order
(allPostsDefaultOrder, the Meta ordering [-publish]) returns the rows
sorted by publish descending and is a permutation of the table;
querying all Comments without an explicit order (allCommentsDefaultOrder,
the Meta ordering [created]) returns the rows sorted by created
ascending and is a permutation of the table; and each Meta declares
exactly one secondary index, on the same field expression as its
default ordering. -/
theorem default_ordering_spec (posts : List Post) (comments : List Comment) :
    (allPostsDefaultOrder posts).Pairwise
      (fun a b => b.publish.toNat ≤ a.publish.toNat) ∧
    List.Perm (allPostsDefaultOrder posts) posts ∧
    (allCommentsDefaultOrder comments).Pairwise
      (fun a b => a.created.toNat ≤ b.created.toNat) ∧
    List.Perm (allCommentsDefaultOrder comments) comments ∧
    postMetaIndexes = [postMetaOrdering] ∧
    commentMetaIndexes = [commentMetaOrdering] := by
  refine ⟨?_, perm_sortBy _ posts, ?_, perm_sortBy _ comments, rfl, rfl⟩
  · exact (pairwise_sortBy publishDescBefore_total publishDescBefore_trans posts).imp
      (fun h => of_decide_eq_true h)
  · exact (pairwise_sortBy createdAscBefore_total createdAscBefore_trans comments).imp
      (fun h => of_decide_eq_true h)

/-- Claim C4 witness: the default orderings and index declarations on a
concrete two-row Post table and a one-row Comment table. -/
theorem default_ordering_spec_witness :
    (allPostsDefaultOrder [postHiJan1, postHiJan2]).Pairwise
      (fun a b => b.publish.toNat ≤ a.publish.toNat) ∧
    List.Perm (allPostsDefaultOrder [postHiJan1, postHiJan2])
      [postHiJan1, postHiJan2] ∧
    (allCommentsDefaultOrder [commentAnn]).Pairwise
      (fun a b => a.created.toNat ≤ b.created.toNat) ∧
    List.Perm (allCommentsDefaultOrder [commentAnn]) [commentAnn] ∧
    postMetaIndexes = [postMetaOrdering] ∧
    commentMetaIndexes = [commentMetaOrdering] :=
  default_ordering_spec [postHiJan1, postHiJan2] [commentAnn]

/-- Claim C5: deleting a Post by id removes exactly its row from the
Post table and exactly the Comments referencing it (on_delete=CASCADE
on Comment.post), leaving users untouched; deleting a user removes
exactly that author's Posts (on_delete=CASCADE on Post.author) and,
transitively, the Comments on those Posts; both operations are total
functions into DB, so a cascade is never reported as an error. -/
theorem cascade_delete_spec (db : DB) (pid uid : Nat) (p : Post) (c : Comment) :
    (p ∈ (deletePost db pid).posts ↔ p ∈ db.posts ∧ p.id ≠ pid) ∧
    (c ∈ (deletePost db pid).comments ↔ c ∈ db.comments ∧ c.post ≠ pid) ∧
    (deletePost db pid).users = db.users ∧
    (p ∈ (deleteUser db uid).posts ↔ p ∈ db.posts ∧ p.author ≠ uid) ∧
    (c ∈ (deleteUser db uid).comments ↔
      c ∈ db.comments ∧ ∀ q ∈ db.posts, q.id = c.post → q.author ≠ uid) := by
  refine ⟨?_, ?_, rfl, ?_, ?_⟩
  · simp [deletePost, List.mem_filter]
  · simp [deletePost, List.mem_filter]
  · simp [deleteUser, List.mem_filter]
  · simp [deleteUser, List.mem_filter, not_and]

end Blog
namespace Blog

/-- Claim C5 witness: the cascade characterization instantiated on a
concrete database state. -/
theorem cascade_delete_spec_witness :
    (postHiJan1 ∈ (deletePost dbSample 1).posts ↔
      postHiJan1 ∈ dbSample.posts ∧ postHiJan1.id ≠ 1) ∧
    (commentAnn ∈ (deletePost dbSample 1).comments ↔
      commentAnn ∈ dbSample.comments ∧ commentAnn.post ≠ 1) ∧
    (deletePost dbSample 1).users = dbSample.users ∧
    (postHiJan1 ∈ (deleteUser dbSample 1).posts ↔
      postHiJan1 ∈ dbSample.posts ∧ postHiJan1.author ≠ 1) ∧
    (commentAnn ∈ (deleteUser dbSample 1).comments ↔
      commentAnn ∈ dbSample.comments ∧
      ∀ q ∈ dbSample.posts, q.id = commentAnn.post → q.author ≠ 1) :=
  cascade_delete_spec dbSample 1 1 postHiJan1 commentAnn

/-- Claim C6: on both Post and Comment, the row built by an insert at
time now carries created = now and updated = now whatever the caller
supplied for them (auto_now_add=True, auto_now=True), and the row after
an update at time later keeps created unchanged and carries
updated = later, again whatever the caller supplied for them. -/
theorem auto_timestamps_spec (now later : DateTime) (nextId : Nat) (p : Post)
    (pinp : PostInput) (pupd : PostUpdate) (cinp : CommentInput)
    (cupd : CommentUpdate) (c : Comment) :
    (insertPostRow now nextId pinp).created = now ∧
    (insertPostRow now nextId pinp).updated = now ∧
    (updatePostRow later p pupd).created = p.created ∧
    (updatePostRow later p pupd).updated = later ∧
    (insertCommentRow now nextId cinp).created = now ∧
    (insertCommentRow now nextId cinp).updated = now ∧
    (updateCommentRow later c cupd).created = c.created ∧
    (updateCommentRow later c cupd).updated = later :=
  ⟨rfl, rfl, rfl, rfl, rfl, rfl, rfl, rfl⟩

/-- Claim C6 witness: concrete inserts and updates whose caller input
attempts to override created and updated with dtJan2; the stored rows
ignore the attempt. -/
theorem auto_timestamps_spec_witness :
    (insertPostRow dtJan1 1
        ⟨"Hi", "hi", 1, "b", none, none, some dtJan2, some dtJan2⟩).created
      = dtJan1 ∧
    (insertPostRow dtJan1 1
        ⟨"Hi", "hi", 1, "b", none, none, some dtJan2, some dtJan2⟩).updated
      = dtJan1 ∧
    (updatePostRow dtJan2 postHiJan1
        ⟨none, none, none, none, none, none, some dtJan2, some dtJan1⟩).created
      = postHiJan1.created ∧
    (updatePostRow dtJan2 postHiJan1
        ⟨none, none, none, none, none, none, some dtJan2, some dtJan1⟩).updated
      = dtJan2 ∧
    (insertCommentRow dtJan1 1
        ⟨1, "Ann", "ann@example.com", "b", none, some dtJan2, some dtJan2⟩).created
      = dtJan1 ∧
    (insertCommentRow dtJan1 1
        ⟨1, "Ann", "ann@example.com", "b", none, some dtJan2, some dtJan2⟩).updated
      = dtJan1 ∧
    (updateCommentRow dtJan2 commentAnn
        ⟨none, none, none, none, none, some dtJan2, some dtJan1⟩).created
      = commentAnn.created ∧
    (updateCommentRow dtJan2 commentAnn
        ⟨none, none, none, none, none, some dtJan2, some dtJan1⟩).updated
      = dtJan2 :=
  auto_timestamps_spec dtJan1 dtJan2 1 postHiJan1
    ⟨"Hi", "hi", 1, "b", none, none, some dtJan2, some dtJan2⟩
    ⟨none, none, none, none, none, none, some dtJan2, some dtJan1⟩
    ⟨1, "Ann", "ann@example.com", "b", none, some dtJan2, some dtJan2⟩
    ⟨none, none, none, none, none, some dtJan2, some dtJan1⟩
    commentAnn

/-- Claim C8: a Post inserted with no explicit status and no explicit
publish value gets status Draft (code DF) and publish equal to the
insertion time; a Comment inserted with no explicit active value gets
active = true. -/
theorem creation_defaults_spec (now : DateTime) (nextId : Nat)
    (t s b : String) (a : Nat) (cpid : Nat) (nm em bd : String) :
    (insertPostRow now nextId ⟨t, s, a, b, none, none, none, none⟩).status
      = Status.DRAFT ∧
    (insertPostRow now nextId ⟨t, s, a, b, none, none, none, none⟩).publish
      = now ∧
    (insertCommentRow now nextId ⟨cpid, nm, em, bd, none, none, none⟩).active
      = true :=
  ⟨rfl, rfl, rfl⟩

/-- Claim C8 witness: the creation defaults at concrete field values. -/
theorem creation_defaults_spec_witness :
    (insertPostRow dtJan1 1 ⟨"Hi", "hi", 1, "b", none, none, none, none⟩).status
      = Status.DRAFT ∧
    (insertPostRow dtJan1 1 ⟨"Hi", "hi", 1, "b", none, none, none, none⟩).publish
      = dtJan1 ∧
    (insertCommentRow dtJan1 1
        ⟨1, "Ann", "ann@example.com", "b", none, none, none⟩).active = true :=
  creation_defaults_spec dtJan1 1 "Hi" "hi" "b" 1 1 "Ann" "ann@example.com" "b"

end Blog
namespace Blog

/-- Claim C3: the canonical URL builder Post.get_absolute_url hands the
external resolver the route name blog:post_detail together with exactly
the four components publish.year, publish.month, publish.day and slug,
in that order; in particular a Post with publish timestamp on
2024-01-01 and slug hi yields the components (2024, 1, 1, hi).  Both
columns are non-nullable in the schema, so the builder's domain
excludes rows missing them by construction. -/
theorem url_builder_spec (p : Post) :
    p.get_absolute_url =
      reverse "blog:post_detail"
        [UrlArg.num p.publish.year, UrlArg.num p.publish.month,
         UrlArg.num p.publish.day, UrlArg.str p.slug] ∧
    (p.publish = dtJan1 → p.slug = "hi" →
      p.get_absolute_url.args
        = [UrlArg.num 2024, UrlArg.num 1, UrlArg.num 1, UrlArg.str "hi"]) := by
  refine ⟨rfl, ?_⟩
  intro hpub hslug
  simp [Post.get_absolute_url, reverse, hpub, hslug, dtJan1]

/-- Claim C3 witness: the URL builder on the concrete Post postHiJan1
(publish 2024-01-01, slug hi). -/
theorem url_builder_spec_witness :
    postHiJan1.get_absolute_url.args
      = [UrlArg.num 2024, UrlArg.num 1, UrlArg.num 1, UrlArg.str "hi"] :=
  (url_builder_spec postHiJan1).2 rfl rfl

/-- Claim C7: the status enumeration is the closed two-variant set with
stored codes DF and PB and display labels Draft and Published; field
validation rejects any Post whose status lies outside that set with an
error, and on success hands back the row unchanged, never coercing the
value. -/
theorem status_choices_spec (p : Post) :
    Status.choices = [(Status.DRAFT, "Draft"), (Status.PUBLISHED, "Published")] ∧
    (p.status ≠ Status.DRAFT → p.status ≠ Status.PUBLISHED →
      ∃ e, cleanFieldsPost p = Except.error e) ∧
    (∀ q, cleanFieldsPost p = Except.ok q → q = p) := by
  refine ⟨rfl, ?_, ?_⟩
  · intro h1 h2
    cases hcl : cleanFieldsPost p with
    | error e => exact ⟨e, rfl⟩
    | ok q =>
      rcases (cleanFieldsPost_ok_iff p q).mp hcl with ⟨-, -, -, -, hst⟩
      rcases hst with h | h
      · exact absurd h h1
      · exact absurd h h2
  · intro q hq
    exact ((cleanFieldsPost_ok_iff p q).mp hq).1

/-- Claim C7 witness: the Post badStatusPost, whose status code XX is
outside the choices set while every length bound holds, is rejected by
field validation. -/
theorem status_choices_spec_witness :
    ∃ e, cleanFieldsPost badStatusPost = Except.error e :=
  (status_choices_spec badStatusPost).2.1 (by decide) (by decide)

/-- Claim C9: a Comment whose email is not syntactically valid is
rejected by the validated insert, with an error, and is never stored:
no table can result from the write. -/
theorem email_validation_spec (table : List Comment) (c : Comment)
    (hbad : isValidEmail c.email = false) :
    (∀ t2, validatedInsertComment table c ≠ Except.ok t2) ∧
    ∃ e, validatedInsertComment table c = Except.error e := by
  constructor
  · intro t2 h
    rcases (validatedInsertComment_ok_iff table c t2).mp h with ⟨-, -, hval⟩
    rw [hval] at hbad
    exact Bool.noConfusion hbad
  · cases hins : validatedInsertComment table c with
    | error e => exact ⟨e, rfl⟩
    | ok t2 =>
      rcases (validatedInsertComment_ok_iff table c t2).mp hins with ⟨-, -, hval⟩
      rw [hval] at hbad
      exact Bool.noConfusion hbad

/-- Claim C9 witness: the Comment badEmailComment, whose email has no
at-sign, is rejected by the validated insert into the empty table. -/
theorem email_validation_spec_witness :
    (∀ t2, validatedInsertComment [] badEmailComment ≠ Except.ok t2) ∧
    ∃ e, validatedInsertComment [] badEmailComment = Except.error e :=
  email_validation_spec [] badEmailComment (by decide)

end Blog
namespace Blog

/-- Claim C10: in every Post table reachable by validated inserts,
every stored row has title of length at most 250, slug of length at
most 250 and status code of length at most 2; in every Comment table
reachable by validated inserts, every stored row has name of length at
most 80; and a validated write of a row exceeding any of these bounds
never succeeds. -/
theorem length_bounds_spec :
    (∀ table, PostTableReachable table → ∀ p ∈ table,
      p.title.length ≤ 250 ∧ p.slug.length ≤ 250 ∧ p.status.length ≤ 2) ∧
    (∀ table, CommentTableReachable table → ∀ c ∈ table,
      c.name.length ≤ 80) ∧
    (∀ table (p : Post) t2, 250 < p.title.length →
      validatedInsertPost table p ≠ Except.ok t2) ∧
    (∀ table (p : Post) t2, 250 < p.slug.length →
      validatedInsertPost table p ≠ Except.ok t2) ∧
    (∀ table (p : Post) t2, 2 < p.status.length →
      validatedInsertPost table p ≠ Except.ok t2) ∧
    (∀ table (c : Comment) t2, 80 < c.name.length →
      validatedInsertComment table c ≠ Except.ok t2) := by
  refine ⟨?_, ?_, ?_, ?_, ?_, ?_⟩
  · intro table hreach
    induction hreach with
    | empty => intro p hp; cases hp
    | step hr hins ih =>
      rcases (validatedInsertPost_ok_iff _ _ _).mp hins with ⟨rfl, hcl, -⟩
      rcases (cleanFieldsPost_ok_iff _ _).mp hcl with ⟨-, h1, h2, h3, -⟩
      intro p hp
      rcases List.mem_cons.mp hp with rfl | hp
      · exact ⟨h1, h2, h3⟩
      · exact ih p hp
  · intro table hreach
    induction hreach with
    | empty => intro c hc; cases hc
    | step hr hins ih =>
      rcases (validatedInsertComment_ok_iff _ _ _).mp hins with ⟨rfl, hn, -⟩
      intro c hc
      rcases List.mem_cons.mp hc with rfl | hc
      · exact hn
      · exact ih c hc
  · intro table p t2 hlen hins
    rcases (validatedInsertPost_ok_iff _ _ _).mp hins with ⟨-, hcl, -⟩
    rcases (cleanFieldsPost_ok_iff _ _).mp hcl with ⟨-, h1, -⟩
    omega
  · intro table p t2 hlen hins
    rcases (validatedInsertPost_ok_iff _ _ _).mp hins with ⟨-, hcl, -⟩
    rcases (cleanFieldsPost_ok_iff _ _).mp hcl with ⟨-, -, h2, -⟩
    omega
  · intro table p t2 hlen hins
    rcases (validatedInsertPost_ok_iff _ _ _).mp hins with ⟨-, hcl, -⟩
    rcases (cleanFieldsPost_ok_iff _ _).mp hcl with ⟨-, -, -, h3, -⟩
    omega
  · intro table c t2 hlen hins
    rcases (validatedInsertComment_ok_iff _ _ _).mp hins with ⟨-, hn, -⟩
    omega

/-- Claim C10 witness: the length bounds on the concrete table reached
by one validated insert of postHiJan1 into the empty table. -/
theorem length_bounds_spec_witness :
    postHiJan1.title.length ≤ 250 ∧ postHiJan1.slug.length ≤ 250 ∧
    postHiJan1.status.length ≤ 2 :=
  length_bounds_spec.1 [postHiJan1]
    (PostTableReachable.step (p := postHiJan1) PostTableReachable.empty (by rfl))
    postHiJan1 (List.mem_singleton.mpr rfl)

end Blog
namespace Blog

/-- Claim C2 counterexample: postHiJan1 and postHiJan1b share both slug
and publish date, yet the storage layer accepts the second write: the
model declarations emit no unique constraint on (slug, publish date) to
the database (the unique_for_date option is validation-only), so the
claimed storage-layer enforcement does not exist and the unvalidated
duplicate write succeeds. -/
theorem slug_unique_storage_counterexample :
    postHiJan1.slug = postHiJan1b.slug ∧
    postHiJan1.publish.date = postHiJan1b.publish.date ∧
    postHiJan1 ≠ postHiJan1b ∧
    storageInsertPost [postHiJan1] postHiJan1b
      = Except.ok [postHiJan1b, postHiJan1] := by
  refine ⟨rfl, rfl, by decide, rfl⟩

/-- Claim C2 (amended): uniqueness of (slug, publish date) is enforced
at the validation boundary, not by a storage-layer constraint: a
validated insert succeeds exactly when no stored row shares both slug
and publish date with the new row (given its fields pass field
validation), and whenever some stored row shares both, the validated
write fails with an error. -/
theorem slug_unique_validation_spec (table : List Post) (p : Post)
    (hclean : cleanFieldsPost p = Except.ok p) :
    (validatedInsertPost table p = Except.ok (p :: table) ↔
      ∀ q ∈ table, ¬(q.slug = p.slug ∧ q.publish.date = p.publish.date)) ∧
    (∀ q ∈ table, q.slug = p.slug → q.publish.date = p.publish.date →
      ∃ e, validatedInsertPost table p = Except.error e) := by
  constructor
  · constructor
    · intro h
      exact ((validatedInsertPost_ok_iff table p (p :: table)).mp h).2.2
    · intro hnone
      exact (validatedInsertPost_ok_iff table p (p :: table)).mpr
        ⟨rfl, hclean, hnone⟩
  · intro q hq hslug hdate
    cases hins : validatedInsertPost table p with
    | error e => exact ⟨e, rfl⟩
    | ok t2 =>
      rcases (validatedInsertPost_ok_iff table p t2).mp hins with ⟨-, -, hnone⟩
      exact absurd ⟨hslug, hdate⟩ (hnone q hq)

/-- Claim C2 witness: the end-to-end scenario of the specification.
Two validated inserts with slug hi on publish dates 2024-01-01 and
2024-01-02 both succeed; a third validated insert with slug hi on
2024-01-01 fails. -/
theorem slug_unique_validation_spec_witness :
    validatedInsertPost [] postHiJan1 = Except.ok [postHiJan1] ∧
    validatedInsertPost [postHiJan1] postHiJan2
      = Except.ok [postHiJan2, postHiJan1] ∧
    ∃ e, validatedInsertPost [postHiJan2, postHiJan1] postHiJan1b
      = Except.error e := by
  refine ⟨?_, ?_, ?_⟩
  · exact (slug_unique_validation_spec [] postHiJan1 (by rfl)).1.mpr
      (by intro q hq; cases hq)
  · exact (slug_unique_validation_spec [postHiJan1] postHiJan2 (by rfl)).1.mpr
      (by decide)
  · exact (slug_unique_validation_spec [postHiJan2, postHiJan1] postHiJan1b
      (by rfl)).2 postHiJan1 (by decide) rfl rfl

end Blog
